import Mathlib

/-!
Verification development for the slv_methane_study repository
(src/data_ag.py and src/geo_map.py).

The pandas data model is shallowly embedded: a DataFrame cell is a
`Value` (numeric cells as exact rationals, text cells as strings,
datetime cells as rational seconds since the civil epoch 1970-01-01,
mirroring the int64-nanosecond representation pandas uses, and NaN/NaT
as `null`).  A DataFrame is a `Frame`: an optional named index (the
`none` case models the default RangeIndex) plus column names and rows.
Python exceptions are modelled with `Except String`; a function that the
source wraps in a try/except block is split into a `...Core` function
returning `Except String Frame` and an outer function that converts any
error into the empty frame, exactly as the source's except-branch does.
-/

inductive Value where
  | num (q : ℚ)
  | str (s : String)
  | dt (t : ℚ)
  | null
deriving DecidableEq, Repr

/-- Sort key pandas uses when ordering rows by a datetime (or numeric)
column: missing values sort last (`na_position` defaults to `'last'`).
String cells never occur in the sorted-by columns exercised here. -/
def vKey : Value → WithTop ℚ
  | .num q => (q : WithTop ℚ)
  | .dt t => (t : WithTop ℚ)
  | .str _ => ⊤
  | .null => ⊤

structure Frame where
  idx : Option (String × List Value)
  cols : List String
  rows : List (List Value)
deriving DecidableEq, Repr

/-- `pd.DataFrame()`: the empty frame every reader returns on a caught
file-level failure. -/
def Frame.empty : Frame := ⟨none, [], []⟩

/-- `pd.merge_asof` direction parameter (`method` in `merge_datasets`). -/
inductive Direction where
  | nearest
  | forward
  | backward
deriving DecidableEq, Repr

/-- Error-propagating map (models a python loop/apply that raises on the
first failing element). -/
def mapE (g : α → Except String β) : List α → Except String (List β)
  | [] => .ok []
  | a :: as =>
    match g a with
    | .error e => .error e
    | .ok b =>
      match mapE g as with
      | .error e => .error e
      | .ok bs => .ok (b :: bs)

/-! ## Civil-calendar arithmetic

pandas datetimes are instants; we encode them as rational seconds since
1970-01-01 00:00:00 via the standard days-from-civil algorithm. -/

def isLeapYear (y : Int) : Bool :=
  (y % 4 == 0 && y % 100 != 0) || (y % 400 == 0)

def daysInMonth (y : Int) (m : Nat) : Nat :=
  if m = 2 then (if isLeapYear y then 29 else 28)
  else if m = 4 ∨ m = 6 ∨ m = 9 ∨ m = 11 then 30
  else 31

def daysFromCivil (y : Int) (m d : Nat) : Int :=
  let yy : Int := if m ≤ 2 then y - 1 else y
  let era : Int := Int.fdiv yy 400
  let yoe : Int := yy - era * 400
  let mp : Nat := if 2 < m then m - 3 else m + 9
  let doy : Nat := (153 * mp + 2) / 5 + (d - 1)
  let doe : Int := yoe * 365 + Int.fdiv yoe 4 - Int.fdiv yoe 100 + (doy : Int)
  era * 146097 + doe - 719468

/-- Seconds since the epoch of the datetime with the given components. -/
def dtSecs (y : Int) (mo d h mi s : Nat) (frac : ℚ) : ℚ :=
  ((daysFromCivil y mo d * 86400 : Int) : ℚ) + ((3600 * h + 60 * mi + s : Nat) : ℚ) + frac

/-- `datetime.datetime(y, mo, d)`: validates the components and raises
`ValueError` on an invalid date, as CPython does. -/
def pyDatetime (y mo d : Nat) : Except String ℚ :=
  if 1 ≤ y ∧ y ≤ 9999 ∧ 1 ≤ mo ∧ mo ≤ 12 ∧ 1 ≤ d ∧ d ≤ daysInMonth (y : Int) mo then
    .ok (dtSecs (y : Int) mo d 0 0 0 0)
  else .error "ValueError: invalid date"

/-! ## Field parsing (pandas value conversion) -/

def digitsToNat (ds : List Char) : Nat :=
  ds.foldl (fun a c => 10 * a + (c.toNat - 48)) 0

/-- Unsigned decimal literal (digits, optionally with a fractional part),
as accepted when pandas converts a CSV field to a number. -/
def parseRatCore (cs : List Char) : Option ℚ :=
  let ip := cs.takeWhile Char.isDigit
  let rest := cs.dropWhile Char.isDigit
  match rest with
  | [] => if ip = [] then none else some ((digitsToNat ip : ℚ))
  | '.' :: rest2 =>
    let fp := rest2.takeWhile Char.isDigit
    let rest3 := rest2.dropWhile Char.isDigit
    if rest3 = [] ∧ (ip ≠ [] ∨ fp ≠ []) then
      some ((digitsToNat ip : ℚ) + (digitsToNat fp : ℚ) / ((10 : ℚ) ^ fp.length))
    else none
  | _ => none

def parseRat (t : String) : Option ℚ :=
  match t.data with
  | '-' :: cs => (parseRatCore cs).map (fun q => -q)
  | '+' :: cs => parseRatCore cs
  | _ => parseRatCore t.data

/-- Python `str.split(sep)` over the character list. -/
def splitOnChar (sep : Char) : List Char → List (List Char)
  | [] => [[]]
  | c :: cs =>
    if c = sep then [] :: splitOnChar sep cs
    else
      match splitOnChar sep cs with
      | [] => [[c]]
      | t :: ts => (c :: t) :: ts

/-- `str.strip()` (python) / whitespace trim. -/
def strTrim (s : String) : String :=
  String.mk (((s.data.dropWhile Char.isWhitespace).reverse.dropWhile Char.isWhitespace).reverse)

/-- `str.lstrip()` (python) / left whitespace trim. -/
def strTrimLeft (s : String) : String :=
  String.mk (s.data.dropWhile Char.isWhitespace)

/-- The line is empty after stripping. -/
def isBlankStr (s : String) : Bool :=
  s.data.all Char.isWhitespace

def strStartsWith (s pre : String) : Bool :=
  pre.data.isPrefixOf s.data

/-- Default NaN spellings pandas recognises in a CSV field. -/
def baseNaStrings : List String := ["", "NaN", "nan", "NA", "N/A", "null", "NULL", "n/a"]

/-- Convert one raw CSV field: a recognised NaN spelling gives null, a
numeric literal gives a number, anything else stays a string. -/
def parseField (na : List String) (s : String) : Value :=
  let t := strTrim s
  if t ∈ na then .null
  else
    match parseRat t with
    | some q => .num q
    | none => .str s

def splitCommas (s : String) : List String := (splitOnChar ',' s.data).map String.mk

/-- pandas `skip_blank_lines=True`: blank lines are dropped before the
header/data rows are counted. -/
def csvNonblank (lines : List String) : List String :=
  lines.filter (fun s => !(isBlankStr s))

/-- Pad a short row with NaN up to the column count (both pandas engines
fill missing trailing fields with NaN). -/
def padRow (n : Nat) (vs : List Value) : List Value :=
  vs ++ List.replicate (n - vs.length) Value.null

/-! ## Frame operations -/

def colIdx (f : Frame) (c : String) : Option Nat :=
  f.cols.findIdx? (fun s => s == c)

/-- `df[c]` for a column: `KeyError` when absent. -/
def colValues (f : Frame) (c : String) : Except String (List Value) :=
  match colIdx f c with
  | some k => .ok (f.rows.map (fun row => row.getD k Value.null))
  | none => .error ("KeyError: " ++ c)

/-- `row[c]` when the lookup is known to succeed elsewhere; null when the
column is absent (used only in specification statements). -/
def cellOf (f : Frame) (row : List Value) (c : String) : Value :=
  match colIdx f c with
  | some k => row.getD k Value.null
  | none => Value.null

/-- `row[c]` inside a python loop: `KeyError` when the column is absent. -/
def cellOfE (f : Frame) (row : List Value) (c : String) : Except String Value :=
  match colIdx f c with
  | some k => .ok (row.getD k Value.null)
  | none => .error ("KeyError: " ++ c)

/-- `df[c] = vs`: replace the column when it exists, else append it. -/
def setCol (f : Frame) (c : String) (vs : List Value) : Frame :=
  match colIdx f c with
  | some k => ⟨f.idx, f.cols, (f.rows.zip vs).map (fun p => p.1.set k p.2)⟩
  | none => ⟨f.idx, f.cols ++ [c], (f.rows.zip vs).map (fun p => p.1 ++ [p.2])⟩

/-- `df.set_index(c)`: moves column `c` into the index. -/
def set_index (c : String) (f : Frame) : Except String Frame :=
  match colIdx f c with
  | some k =>
    .ok ⟨some (c, f.rows.map (fun row => row.getD k Value.null)),
         f.cols.eraseIdx k,
         f.rows.map (fun row => row.eraseIdx k)⟩
  | none => .error ("KeyError: " ++ c)

def pairLe (a b : Value × List Value) : Prop := vKey a.1 ≤ vKey b.1

instance : DecidableRel pairLe := fun a b =>
  inferInstanceAs (Decidable (vKey a.1 ≤ vKey b.1))

instance : IsTotal (Value × List Value) pairLe :=
  ⟨fun a b => le_total (vKey a.1) (vKey b.1)⟩

instance : IsTrans (Value × List Value) pairLe :=
  ⟨fun _ _ _ h1 h2 => le_trans h1 h2⟩

/-- `df.sort_index()`: stable sort of the rows by index value, missing
values last.  Identity on a default RangeIndex. -/
def sort_index (f : Frame) : Frame :=
  match f.idx with
  | none => f
  | some (n, vs) =>
    let ps := List.insertionSort pairLe (vs.zip f.rows)
    ⟨some (n, ps.map (fun p => p.1)), f.cols, ps.map (fun p => p.2)⟩

def rowLe (k : Nat) (a b : List Value) : Prop :=
  vKey (a.getD k Value.null) ≤ vKey (b.getD k Value.null)

instance (k : Nat) : DecidableRel (rowLe k) := fun a b =>
  inferInstanceAs (Decidable (vKey (a.getD k Value.null) ≤ vKey (b.getD k Value.null)))

instance (k : Nat) : IsTotal (List Value) (rowLe k) :=
  ⟨fun a b => le_total (vKey (a.getD k Value.null)) (vKey (b.getD k Value.null))⟩

instance (k : Nat) : IsTrans (List Value) (rowLe k) :=
  ⟨fun _ _ _ h1 h2 => le_trans h1 h2⟩

/-- `df.sort_values(c)`: stable sort of the rows by column `c`,
`KeyError` when the column is absent. -/
def sort_values (c : String) (f : Frame) : Except String Frame :=
  match colIdx f c with
  | some k => .ok ⟨f.idx, f.cols, List.insertionSort (rowLe k) f.rows⟩
  | none => .error ("KeyError: " ++ c)

/-- `df.reset_index()`: moves the index back into a leading column (named
`index` for a default RangeIndex); raises when the index name collides
with an existing column. -/
def reset_index (f : Frame) : Except String Frame :=
  match f.idx with
  | none => .ok ⟨none, "index" :: f.cols, f.rows.enum.map (fun p => Value.num (p.1 : ℚ) :: p.2)⟩
  | some (n, vs) =>
    if n ∈ f.cols then .error ("ValueError: cannot insert " ++ n)
    else .ok ⟨none, n :: f.cols, (vs.zip f.rows).map (fun p => p.1 :: p.2)⟩

/-- `df.rename(columns=...)` restricted to pairs whose source exists. -/
def renameCols (prs : List (String × String)) (f : Frame) : Frame :=
  ⟨f.idx,
   f.cols.map (fun c =>
     match prs.find? (fun p => p.1 == c) with
     | some p => p.2
     | none => c),
   f.rows⟩

/-- `df.drop(columns=cs)`: `KeyError` when one of the columns is absent. -/
def dropCols (f : Frame) (cs : List String) : Except String Frame :=
  if cs.all (fun c => f.cols.contains c) then
    .ok ⟨f.idx,
         f.cols.filter (fun c => !(cs.contains c)),
         f.rows.map (fun row =>
           ((f.cols.zip row).filter (fun p => !(cs.contains p.1))).map (fun p => p.2))⟩
  else .error "KeyError: drop"

/-- `df[cs]` column projection (every name in `cs` exists). -/
def selectCols (cs : List String) (f : Frame) : Frame :=
  ⟨f.idx, cs, f.rows.map (fun row => cs.map (fun c => cellOf f row c))⟩

/-! ## Gas-analyzer reader (`read_aeris`)

`pd.read_csv(filename, sep=',', skipfooter=1, on_bad_lines='skip',
engine='python')`, then `pd.to_datetime(df['Time Stamp'],
format='%m/%d/%Y %H:%M:%S.%f', errors='coerce')`, `set_index`,
`sort_index`.  The whole body is wrapped in try/except returning
`pd.DataFrame()`. -/

/-- `datetime.strptime` for the Aeris format `%m/%d/%Y %H:%M:%S.%f`
(1-2 digit month/day/hour/minute/second fields, 4-digit year, 1-6
fractional-second digits), validating the calendar ranges. -/
def parseAerisTime (s : String) : Option ℚ :=
  let cs := s.data
  let moD := cs.takeWhile Char.isDigit
  let r1 := cs.dropWhile Char.isDigit
  if moD.length = 0 ∨ 2 < moD.length then none else
  match r1 with
  | '/' :: r2 =>
    let dD := r2.takeWhile Char.isDigit
    let r3 := r2.dropWhile Char.isDigit
    if dD.length = 0 ∨ 2 < dD.length then none else
    match r3 with
    | '/' :: r4 =>
      let yD := r4.takeWhile Char.isDigit
      let r5 := r4.dropWhile Char.isDigit
      if yD.length ≠ 4 then none else
      match r5 with
      | ' ' :: r6 =>
        let hD := r6.takeWhile Char.isDigit
        let r7 := r6.dropWhile Char.isDigit
        if hD.length = 0 ∨ 2 < hD.length then none else
        match r7 with
        | ':' :: r8 =>
          let miD := r8.takeWhile Char.isDigit
          let r9 := r8.dropWhile Char.isDigit
          if miD.length = 0 ∨ 2 < miD.length then none else
          match r9 with
          | ':' :: r10 =>
            let sD := r10.takeWhile Char.isDigit
            let r11 := r10.dropWhile Char.isDigit
            if sD.length = 0 ∨ 2 < sD.length then none else
            match r11 with
            | '.' :: r12 =>
              let fD := r12.takeWhile Char.isDigit
              let r13 := r12.dropWhile Char.isDigit
              if fD.length = 0 ∨ 6 < fD.length ∨ r13 ≠ [] then none else
              let y := digitsToNat yD
              let mo := digitsToNat moD
              let d := digitsToNat dD
              let h := digitsToNat hD
              let mi := digitsToNat miD
              let sec := digitsToNat sD
              if 1 ≤ y ∧ 1 ≤ mo ∧ mo ≤ 12 ∧ 1 ≤ d ∧ d ≤ daysInMonth (y : Int) mo ∧
                 h ≤ 23 ∧ mi ≤ 59 ∧ sec ≤ 59 then
                some (dtSecs (y : Int) mo d h mi sec ((digitsToNat fD : ℚ) / (10 : ℚ) ^ fD.length))
              else none
            | _ => none
          | _ => none
        | _ => none
      | _ => none
    | _ => none
  | _ => none

/-- `pd.to_datetime(v, format=..., errors='coerce')` applied to one cell:
any parse failure (or a non-string cell) coerces to NaT. -/
def toDatetimeCoerce (v : Value) : Value :=
  match v with
  | .str s =>
    match parseAerisTime s with
    | some t => .dt t
    | none => .null
  | _ => .null

/-- Row assembly of the python CSV engine with `on_bad_lines='skip'`:
a physical line with more fields than columns is skipped, a short line
is padded with NaN. -/
def parseRowsSkip (n : Nat) (data : List String) : List (List Value) :=
  data.filterMap (fun ln =>
    let fs := splitCommas ln
    if n < fs.length then none
    else some (padRow n (fs.map (parseField baseNaStrings))))

def aerisCsv (lines : List String) : Except String Frame :=
  match csvNonblank lines with
  | [] => .error "EmptyDataError: no columns to parse from file"
  | header :: body =>
    let cols := splitCommas header
    .ok ⟨none, cols, parseRowsSkip cols.length body.dropLast⟩

/-- `open(filename)`: a missing/unreadable file raises. -/
def ofFile (o : Option (List String)) : Except String (List String) :=
  match o with
  | none => .error "FileNotFoundError"
  | some ls => .ok ls

def readAerisCore (o : Option (List String)) : Except String Frame :=
  match ofFile o with
  | .error e => .error e
  | .ok lines =>
    match aerisCsv lines with
    | .error e => .error e
    | .ok f =>
      match colValues f "Time Stamp" with
      | .error e => .error e
      | .ok ts =>
        let f2 := setCol f "TIMESTAMP" (ts.map toDatetimeCoerce)
        match set_index "TIMESTAMP" f2 with
        | .error e => .error e
        | .ok f3 => .ok (sort_index f3)

def read_aeris (o : Option (List String)) : Frame :=
  match readAerisCore o with
  | .ok f => f
  | .error _ => Frame.empty

/-! ## Mobile-weather-station reader (`read_uwml`) -/

/-- `str(pc_time)`.  The PC cells this is applied to are always strings
(the raw field contains a `*`); the numeric case is an approximation of
the python float repr and is never exercised by the theorems below. -/
def pyStr : Value → String
  | .str s => s
  | .null => "nan"
  | .num q => toString q
  | .dt t => toString t

/-- `datetime.strptime(dt_string, '%Y%m%d%H%M%S')` on the 14-digit
concatenation, validating the calendar ranges as CPython does. -/
def strptimeYmdHMS (cs : List Char) : Except String Value :=
  if cs.length = 14 ∧ cs.all Char.isDigit then
    let y := digitsToNat (cs.take 4)
    let mo := digitsToNat ((cs.drop 4).take 2)
    let d := digitsToNat ((cs.drop 6).take 2)
    let h := digitsToNat ((cs.drop 8).take 2)
    let mi := digitsToNat ((cs.drop 10).take 2)
    let sec := digitsToNat ((cs.drop 12).take 2)
    if 1 ≤ y ∧ 1 ≤ mo ∧ mo ≤ 12 ∧ 1 ≤ d ∧ d ≤ daysInMonth (y : Int) mo ∧
       h ≤ 23 ∧ mi ≤ 59 ∧ sec ≤ 59 then
      .ok (.dt (dtSecs (y : Int) mo d h mi sec 0))
    else .error "ValueError: time data does not match format"
  else .error "ValueError: time data does not match format"

/-- The per-row transform of `read_uwml`: split `HHMMSS*YYYYMMDD` on `*`
(an `IndexError` escapes when there is no `*`), reassemble as
`YYYYMMDDHHMMSS` and parse. -/
def parse_uwml_timestamp (v : Value) : Except String Value :=
  let parts := splitOnChar '*' (pyStr v).data
  let time := parts.getD 0 []
  match parts[1]? with
  | none => .error "IndexError: list index out of range"
  | some date => strptimeYmdHMS (date ++ time)

/-- `pd.read_csv(filename, skiprows=3, index_col=False)`: default
`on_bad_lines='error'`, so a line with too many fields raises. -/
def uwmlCsv (lines : List String) : Except String Frame :=
  match csvNonblank (lines.drop 3) with
  | [] => .error "EmptyDataError: no columns to parse from file"
  | header :: body =>
    let cols := splitCommas header
    match mapE (fun ln =>
        let fs := splitCommas ln
        if cols.length < fs.length then .error "ParserError: bad line"
        else .ok (padRow cols.length (fs.map (parseField baseNaStrings)))) body with
    | .error e => .error e
    | .ok rows => .ok ⟨none, cols, rows⟩

def readUwmlCore (o : Option (List String)) : Except String Frame :=
  match ofFile o with
  | .error e => .error e
  | .ok lines =>
    match uwmlCsv lines with
    | .error e => .error e
    | .ok f =>
      match colValues f "PC" with
      | .error e => .error e
      | .ok pc =>
        match mapE parse_uwml_timestamp pc with
        | .error e => .error e
        | .ok ts =>
          let f2 := renameCols [("PC", "TIMESTAMP")] (setCol f "PC" ts)
          match set_index "TIMESTAMP" f2 with
          | .error e => .error e
          | .ok f3 =>
            dropCols (sort_index f3) ["UTC hhmmss", "UTC Year", "UTC Month", "UTC Day"]

def read_uwml (o : Option (List String)) : Frame :=
  match readUwmlCore o with
  | .ok f => f
  | .error _ => Frame.empty

/-! ## Composite/ICARTT reader (`read_ARC`) -/

def okDigits (s : String) (lo hi : Nat) : Bool :=
  decide (lo ≤ s.length) && decide (s.length ≤ hi) && s.data.all Char.isDigit

/-- One line matched against the start/end-date pattern
`^(\d{4}),(\d{1,2}),(\d{1,2}),(\d{4}),(\d{1,2}),(\d{1,2})$` after
stripping; yields the first year/month/day triplet. -/
def dateLineVals (s : String) : Option (Nat × Nat × Nat) :=
  match splitCommas (strTrim s) with
  | [a, b, c, d, e, f] =>
    if okDigits a 4 4 && okDigits b 1 2 && okDigits c 1 2 &&
       okDigits d 4 4 && okDigits e 1 2 && okDigits f 1 2 then
      some (digitsToNat a.data, digitsToNat b.data, digitsToNat c.data)
    else none
  | _ => none

/-- The start-date scan: first matching line wins; `datetime(y, mo, d)`
on the matched digits can itself raise. -/
def scanStartDate (lines : List String) : Except String (Option ℚ) :=
  match lines.findSome? dateLineVals with
  | some (y, mo, d) =>
    match pyDatetime y mo d with
    | .ok t => .ok (some t)
    | .error e => .error e
  | none => .ok none

def hasComma (s : String) : Bool := s.data.contains ','

def hasAlpha (s : String) : Bool :=
  s.data.any (fun c => ('A' ≤ c && c ≤ 'Z') || ('a' ≤ c && c ≤ 'z'))

/-- `re.match(r'^[-+]?\d', s)`. -/
def startsSignedDigit (s : String) : Bool :=
  match s.data with
  | '+' :: c :: _ => c.isDigit
  | '-' :: c :: _ => c.isDigit
  | c :: _ => c.isDigit
  | [] => false

/-- The header-row heuristic at raw-line `i`: the line has a comma and a
letter, and the next non-empty line starts with an optionally-signed
digit and contains a comma. -/
def headerCondAt (lines : List String) (i : Nat) : Bool :=
  let ln := lines.getD i ""
  hasComma ln && hasAlpha ln &&
    (match (lines.drop (i + 1)).find? (fun s => !(isBlankStr s)) with
     | some nx => startsSignedDigit (strTrimLeft nx) && hasComma nx
     | none => false)

/-- The scan `for i, ln in enumerate(lines[:-1])`, breaking at the first
match. -/
def detectHeader (lines : List String) : Option Nat :=
  (List.range (lines.length - 1)).find? (headerCondAt lines)

/-- `na_values=[-99999.0, -99999]` adds the stringified sentinels to the
default NaN spellings. -/
def arcNaStrings : List String := baseNaStrings ++ ["-99999", "-99999.0"]

/-- `pd.read_csv(filename, header=header_row, sep=',', engine='python',
skipinitialspace=True, na_values=[-99999.0, -99999])` followed by the
explicit column-name strip.  `header=` counts rows after blank-line
skipping; a line with too many fields raises (default on_bad_lines). -/
def arcReadCsv (lines : List String) (hr : Nat) : Except String Frame :=
  let csv := csvNonblank lines
  match csv[hr]? with
  | none => .error "ParserError: header row out of range"
  | some header =>
    let cols := (splitCommas header).map (fun c => strTrim c)
    match mapE (fun ln =>
        let fs := splitCommas ln
        if cols.length < fs.length then .error "ParserError: bad line"
        else .ok (padRow cols.length (fs.map (fun s => parseField arcNaStrings (strTrimLeft s)))))
        (csv.drop (hr + 1)) with
    | .error e => .error e
    | .ok rows => .ok ⟨none, cols, rows⟩

/-- `start_date + to_timedelta(v.astype(float), unit='s')` on one cell:
NaN stays NaT, a numeric cell offsets the start date, a string cell goes
through `float()` (raising when unparseable). -/
def startSecondsVal (d : ℚ) (v : Value) : Except String Value :=
  match v with
  | .null => .ok .null
  | .num q => .ok (.dt (d + q))
  | .str s =>
    match parseRat (strTrim s) with
    | some q => .ok (.dt (d + q))
    | none => .error "ValueError: could not convert string to float"
  | .dt _ => .error "TypeError: unsupported"

def yearColNames : List String := ["Year", "Month", "Day", "Hour", "Minute", "Second"]

def intOfValue (v : Value) : Except String Nat :=
  match v with
  | .num q => if q.den = 1 ∧ 0 ≤ q.num then .ok q.num.toNat else .error "ValueError: cannot assemble the datetimes"
  | _ => .error "ValueError: cannot assemble the datetimes"

/-- `pd.to_datetime(df[['Year','Month','Day','Hour','Minute','Second']])`
for one row (errors raise, matching the default `errors='raise'`). -/
def assembleRow (f : Frame) (row : List Value) : Except String Value := do
  let y ← intOfValue (cellOf f row "Year")
  let mo ← intOfValue (cellOf f row "Month")
  let d ← intOfValue (cellOf f row "Day")
  let h ← intOfValue (cellOf f row "Hour")
  let mi ← intOfValue (cellOf f row "Minute")
  let sec ← intOfValue (cellOf f row "Second")
  if 1 ≤ y ∧ y ≤ 9999 ∧ 1 ≤ mo ∧ mo ≤ 12 ∧ 1 ≤ d ∧ d ≤ daysInMonth (y : Int) mo ∧
     h ≤ 23 ∧ mi ≤ 59 ∧ sec ≤ 59 then
    pure (.dt (dtSecs (y : Int) mo d h mi sec 0))
  else throw "ValueError: cannot assemble the datetimes"

/-- The timestamp step of `read_ARC`.  Mirrors the source exactly: the
Year/…/Second fallback sits on an `elif` of the *column-existence* test,
so it is not reached when `StartTime_seconds` exists without a start
date. -/
def arcTimestamp (lines : List String) (hr : Nat) (sd0 : Option ℚ) (f : Frame) :
    Except String Frame :=
  if "StartTime_seconds" ∈ f.cols then
    match (match sd0 with
           | some d => Except.ok (some d)
           | none => scanStartDate (lines.take hr)) with
    | .error e => .error e
    | .ok none => .ok f
    | .ok (some d) =>
      match colValues f "StartTime_seconds" with
      | .error e => .error e
      | .ok col =>
        match mapE (startSecondsVal d) col with
        | .error e => .error e
        | .ok ts =>
          match set_index "TIMESTAMP" (setCol f "TIMESTAMP" ts) with
          | .error e => .error e
          | .ok f2 => .ok (sort_index f2)
  else
    if yearColNames.all (fun c => f.cols.contains c) then
      match mapE (assembleRow f) f.rows with
      | .error e => .error e
      | .ok ts =>
        match set_index "TIMESTAMP" (setCol f "TIMESTAMP" ts) with
        | .error e => .error e
        | .ok f2 => .ok (sort_index f2)
    else .ok f

def isSentinelV (v : Value) : Bool :=
  match v with
  | .num q => decide (q = -99999 ∨ q = -77777 ∨ q = -88888)
  | _ => false

def replVal (v : Value) : Value := if isSentinelV v then .null else v

/-- `df.replace([-99999.0, -99999, -77777, -88888], np.nan)`: applies to
the cells of every column (not the index). -/
def replaceSentinels (f : Frame) : Frame :=
  ⟨f.idx, f.cols, f.rows.map (fun row => row.map replVal)⟩

def arcRenamePairs : List (String × String) :=
  [("CH4_aeris313_ppm", "CH4 (ppm)"),
   ("C2H6_aeris313_ppb", "C2H6 (ppb)"),
   ("true_WD_deg", "GPSCorWindDirTrue (deg)"),
   ("true_WS_m_s", "GPSCorWindSpeed (m/s)"),
   ("lat_DGPS_deg", "Latitude (DD.ddd +N)"),
   ("lon_DGPS_deg", "Longitude (DDD.ddd -W)")]

def arcTargets : List String := arcRenamePairs.map (fun p => p.2)

/-- The projection step: `df = df[existing_desired]` is only executed
when `existing_desired` is non-empty. -/
def projectArc (f : Frame) : Frame :=
  let ex := arcTargets.filter (fun c => f.cols.contains c)
  if ex = [] then f else selectCols ex f

/-- `read_ARC` up to and including the timestamp step (before sentinel
replacement). -/
def arcPreReplace (o : Option (List String)) : Except String Frame :=
  match ofFile o with
  | .error e => .error e
  | .ok lines =>
    match scanStartDate lines with
    | .error e => .error e
    | .ok sd0 =>
      match detectHeader lines with
      | none => .error "ValueError: could not find variable header row in ARC file"
      | some hr =>
        match arcReadCsv lines hr with
        | .error e => .error e
        | .ok f0 => arcTimestamp lines hr sd0 f0

def readArcCore (o : Option (List String)) : Except String Frame :=
  match arcPreReplace o with
  | .error e => .error e
  | .ok f1 => .ok (projectArc (renameCols arcRenamePairs (replaceSentinels f1)))

def read_ARC (o : Option (List String)) : Frame :=
  match readArcCore o with
  | .ok f => f
  | .error _ => Frame.empty

/-! ## geo_map composite variant (`arc_data_dataframe`)

No try/except anywhere in this function: every failure propagates. -/

def geoNaStrings : List String := baseNaStrings ++ ["-99999.0", "-99999"]

def geoRead (lines : List String) (hr : Nat) : Except String Frame :=
  match csvNonblank (lines.drop hr) with
  | [] => .error "EmptyDataError: no columns to parse from file"
  | header :: body =>
    let cols := (splitCommas header).map (fun c => strTrimLeft c)
    match mapE (fun ln =>
        let fs := splitCommas ln
        if cols.length < fs.length then .error "ParserError: bad line"
        else .ok (padRow cols.length (fs.map (fun s => parseField geoNaStrings (strTrimLeft s))))) body with
    | .error e => .error e
    | .ok rows =>
      if cols.length < 3 then .error "IndexError: columns out of range"
      else .ok ⟨none, cols,
        rows.filter (fun row =>
          row.getD 1 Value.null != Value.null && row.getD 2 Value.null != Value.null)⟩

def arc_data_dataframe (o : Option (List String)) : Except String Frame :=
  match o with
  | none => .error "FileNotFoundError"
  | some lines =>
    match lines.findIdx? (fun s => strStartsWith (strTrim s) "StartTime_seconds, lat_DGPS_deg") with
    | none => .error "NameError: name header_line_index is not defined"
    | some hr => geoRead lines hr

/-! ## Merge engine (`merge_datasets` over `pd.merge_asof`) -/

def qOf (v : Value) : ℚ :=
  match v with
  | .num q => q
  | .dt t => t
  | _ => 0

def isDtV (v : Value) : Bool :=
  match v with
  | .dt _ => true
  | _ => false

def chainLeB : List Value → Bool
  | [] => true
  | [_] => true
  | a :: b :: t => decide (vKey a ≤ vKey b) && chainLeB (b :: t)

def chainLtB : List Value → Bool
  | [] => true
  | [_] => true
  | a :: b :: t => decide (vKey a < vKey b) && chainLtB (b :: t)

/-- Backward as-of match: last right row with key at or before `t`,
subject to the tolerance. -/
def bwPick (tol : ℚ) (ps : List (ℚ × List Value)) (t : ℚ) : Option (List Value) :=
  match (ps.filter (fun p => decide (p.1 ≤ t))).getLast? with
  | some p => if t - p.1 ≤ tol then some p.2 else none
  | none => none

/-- Forward as-of match: first right row with key at or after `t`. -/
def fwPick (tol : ℚ) (ps : List (ℚ × List Value)) (t : ℚ) : Option (List Value) :=
  match (ps.filter (fun p => decide (t ≤ p.1))).head? with
  | some p => if p.1 - t ≤ tol then some p.2 else none
  | none => none

/-- Nearest as-of match: the closer of the backward and forward
candidates, the backward one winning ties (as in pandas). -/
def nearPick (tol : ℚ) (ps : List (ℚ × List Value)) (t : ℚ) : Option (List Value) :=
  match (ps.filter (fun p => decide (p.1 ≤ t))).getLast?,
        (ps.filter (fun p => decide (t ≤ p.1))).head? with
  | some p, some q =>
    if t - p.1 ≤ tol then
      if q.1 - t ≤ tol then (if t - p.1 ≤ q.1 - t then some p.2 else some q.2)
      else some p.2
    else if q.1 - t ≤ tol then some q.2 else none
  | some p, none => if t - p.1 ≤ tol then some p.2 else none
  | none, some q => if q.1 - t ≤ tol then some q.2 else none
  | none, none => none

def dirPick (dir : Direction) (tol : ℚ) (ps : List (ℚ × List Value)) (t : ℚ) :
    Option (List Value) :=
  match dir with
  | .backward => bwPick tol ps t
  | .forward => fwPick tol ps t
  | .nearest => nearPick tol ps t

/-- `pd.merge_asof(l, r, left_on=key, right_on=key, direction=dir,
tolerance=tol, suffixes=(sl, sr))`: validates the tolerance, the
datetime type of the keys and their sortedness; emits one output row per
left row, right-side fields null-filled when no match lies within the
tolerance; suffixes colliding non-key column names. -/
def merge_asof (l r : Frame) (key : String) (dir : Direction) (tol : ℚ)
    (sl sr : String) : Except String Frame :=
  match colIdx l key, colIdx r key with
  | some ki, some kj =>
    let lkeys := l.rows.map (fun row => row.getD ki Value.null)
    let rkeys := r.rows.map (fun row => row.getD kj Value.null)
    if tol < 0 then .error "ValueError: tolerance must be positive"
    else if !(lkeys.all isDtV && rkeys.all isDtV) then
      .error "ValueError: incompatible merge keys"
    else if !(chainLeB lkeys && chainLeB rkeys) then
      .error "ValueError: keys must be sorted"
    else
      let rrest := r.cols.eraseIdx kj
      let lcolsOut := l.cols.map (fun c => if c ≠ key ∧ rrest.contains c then c ++ sl else c)
      let rcolsOut := rrest.map (fun c => if (l.cols.eraseIdx ki).contains c then c ++ sr else c)
      let rpairs := r.rows.map (fun row => (qOf (row.getD kj Value.null), row.eraseIdx kj))
      .ok ⟨none,
           lcolsOut ++ rcolsOut,
           l.rows.map (fun row =>
             row ++ (match dirPick dir tol rpairs (qOf (row.getD ki Value.null)) with
                     | some rr => rr
                     | none => List.replicate (r.cols.length - 1) Value.null))⟩
  | _, _ => .error ("KeyError: " ++ key)

def merge_datasets (aeris uwml : Frame) (dir : Direction) (tol : ℚ) :
    Except String Frame :=
  match reset_index aeris with
  | .error e => .error e
  | .ok l' =>
    match reset_index uwml with
    | .error e => .error e
    | .ok r' =>
      match sort_values "TIMESTAMP" l' with
      | .error e => .error e
      | .ok ls =>
        match sort_values "TIMESTAMP" r' with
        | .error e => .error e
        | .ok rs =>
          match merge_asof ls rs "TIMESTAMP" dir tol "_aeris" "_wx" with
          | .error e => .error e
          | .ok m => set_index "TIMESTAMP" m

/-! ## Vector overlay (`add_vector_map`) -/

def numsOf (vs : List Value) : List ℚ :=
  vs.filterMap (fun v =>
    match v with
    | .num q => some q
    | _ => none)

/-- `Series.quantile(q)` with the default linear interpolation, NaN
dropped, NaN result on an empty series. -/
def quantileQ (q : ℚ) (vs : List ℚ) : Value :=
  let s := List.insertionSort (fun a b : ℚ => a ≤ b) vs
  match s with
  | [] => .null
  | _ =>
    let n := s.length
    let pos : ℚ := q * ((n : ℚ) - 1)
    let i : Nat := pos.floor.toNat
    let g : ℚ := pos - (i : ℚ)
    let vi := s.getD i 0
    let vi1 := s.getD (i + 1) vi
    .num (vi + g * (vi1 - vi))

def quantileV (q : ℚ) (vs : List Value) : Value := quantileQ q (numsOf vs)

inductive GlyphColor where
  | scaled (lo hi : Value) (v : ℚ)
  | neutral
deriving DecidableEq, Repr

structure Glyph where
  lat : Value
  lon : Value
  rot : Value
  color : GlyphColor
deriving DecidableEq, Repr

structure VectorLayer where
  name : String
  lo : Value
  hi : Value
  glyphs : List Glyph
deriving DecidableEq, Repr

/-- Helper for `df.iloc[::25]`: skip the next `k` rows, then take a row
and restart with a skip budget of 24. -/
def strideAux : Nat → List α → List α
  | _, [] => []
  | 0, x :: xs => x :: strideAux 24 xs
  | k + 1, _ :: xs => strideAux k xs

/-- `df.iloc[::25]`: every 25th row starting at row 0. -/
def strideRows (l : List α) : List α := strideAux 0 l

/-- `linear(ws) if pd.notna(ws) else '#888888'`: the glyph color comes
from the wind-speed cell through the scale built on `(lo, hi)`. -/
def glyphColorOf (lo hi : Value) (ws : Value) : Except String GlyphColor :=
  match ws with
  | .null => .ok .neutral
  | .num q => .ok (.scaled lo hi q)
  | _ => .error "ValueError: could not map color"

/-- One iteration of the glyph loop: the color is driven by the
hardcoded `true_WS_m_s` cell, the rotation by `true_WD_deg`. -/
def glyphOfRow (f : Frame) (lo hi : Value) (row : List Value) : Except String Glyph :=
  match cellOfE f row "lat_DGPS_deg" with
  | .error e => .error e
  | .ok lat =>
    match cellOfE f row "lon_DGPS_deg" with
    | .error e => .error e
    | .ok lon =>
      match cellOfE f row "true_WS_m_s" with
      | .error e => .error e
      | .ok ws =>
        match cellOfE f row "true_WD_deg" with
        | .error e => .error e
        | .ok wd =>
          match glyphColorOf lo hi ws with
          | .error e => .error e
          | .ok c => .ok ⟨lat, lon, wd, c⟩

/-- `add_vector_map(map_obj, df, column)`: the scale bounds come from
the 1st/99th percentile of the *chosen* column, the glyphs from every
25th row. -/
def add_vector_map (f : Frame) (column : String) : Except String VectorLayer :=
  match colValues f column with
  | .error e => .error e
  | .ok vs =>
    let lo := quantileV (1 / 100) vs
    let hi := quantileV (99 / 100) vs
    match mapE (glyphOfRow f lo hi) (strideRows f.rows) with
    | .error e => .error e
    | .ok gs => .ok ⟨column, lo, hi, gs⟩

/-! ## Zero-padded digit strings (for stating the round-trip claim) -/

def digitChar (k : Nat) : Char := Char.ofNat (48 + k)

/-- The `w`-digit zero-padded decimal form of `n`. -/
def fmtL : Nat → Nat → List Char
  | 0, _ => []
  | w + 1, n => fmtL w (n / 10) ++ [digitChar (n % 10)]

def fmtS (w n : Nat) : String := String.mk (fmtL w n)

/-! ## Derived accessors and concrete inputs used by the statements -/

/-- The index values of a frame (empty for a default RangeIndex). -/
def idxVals (f : Frame) : List Value :=
  match f.idx with
  | some p => p.2
  | none => []

/-- The index is non-decreasing in time (missing stamps last). -/
def idxSortedB (f : Frame) : Bool :=
  match f.idx with
  | none => true
  | some (_, vs) => chainLeB vs

/-- The index is strictly increasing in time. -/
def idxStrict (f : Frame) : Bool :=
  match f.idx with
  | none => true
  | some (_, vs) => chainLtB vs

def getOkF (x : Except String Frame) : Frame :=
  match x with
  | .ok f => f
  | .error _ => Frame.empty

def getOkVs (x : Except String (List Value)) : List Value :=
  match x with
  | .ok vs => vs
  | .error _ => []

/-- ARC file with a `StartTime_seconds` column, no start-date line
anywhere in the preamble, and a full set of Year/…/Second columns. -/
def c5Lines : List String :=
  ["junk",
   "StartTime_seconds, Year, Month, Day, Hour, Minute, Second",
   "0.0, 2024, 8, 1, 0, 0, 0"]

def c5Mid : Frame := getOkF (arcReadCsv c5Lines 1)

/-- ARC file with a start-date line whose data columns contain none of
the rename targets. -/
def c6Lines : List String :=
  ["2024,8,4,2024,8,5",
   "StartTime_seconds, Foo",
   "1.0, 2.0"]

def c6Out : Frame := read_ARC (some c6Lines)

/-- ARC file whose data contains a raw `-77777` sentinel next to an
ordinary value. -/
def c3Lines : List String :=
  ["2024,8,4,2024,8,5",
   "StartTime_seconds, CH4_aeris313_ppm",
   "1.0, -77777",
   "2.0, 1.5"]

def c3Mid : Frame := getOkF (arcPreReplace (some c3Lines))

def c3Out : Frame := read_ARC (some c3Lines)

/-- Weather-station file whose second data row has a PC field with no
`*`; the sibling first data row is perfectly parseable. -/
def c7BadLines : List String :=
  ["a", "b", "c",
   "PC,UTC hhmmss,UTC Year,UTC Month,UTC Day,T",
   "151844*20240801,1,2,3,4,5",
   "x,1,2,3,4,6"]

/-- The same file without the bad row. -/
def c7GoodLines : List String :=
  ["a", "b", "c",
   "PC,UTC hhmmss,UTC Year,UTC Month,UTC Day,T",
   "151844*20240801,1,2,3,4,5"]

def c7Csv : Frame := getOkF (uwmlCsv c7BadLines)

def c7Pc : List Value := getOkVs (colValues c7Csv "PC")

/-- Gas-analyzer file with two identical timestamps plus the trailing
artifact line. -/
def c8Lines : List String :=
  ["Time Stamp,A",
   "08/01/2024 18:15:45.025,1",
   "08/01/2024 18:15:45.025,2",
   "junk"]

/-- Table with all four vector-map fields plus an extra magnitude
column `foo`; wind speed is null while `foo` carries the value 5. -/
def c9Frame : Frame :=
  ⟨none,
   ["lat_DGPS_deg", "lon_DGPS_deg", "true_WS_m_s", "true_WD_deg", "foo"],
   [[Value.num 1, Value.num 2, Value.null, Value.num 90, Value.num 5]]⟩

/-- The vector layer produced from `c9Frame` with chosen column `foo`:
one glyph, colored neutral because the wind-speed cell is null, although
the `foo` cell holds 5. -/
def c9Layer : VectorLayer :=
  ⟨"foo", Value.num 5, Value.num 5,
   [⟨Value.num 1, Value.num 2, Value.num 90, GlyphColor.neutral⟩]⟩

/-- Aeris-format file whose header lacks the `Time Stamp` column: the
reader fails at the column lookup and returns the empty frame. -/
def c10Lines : List String := ["A,B", "1,2", "x,y"]

/-- One-row time-indexed tables 100 seconds apart (tolerance 1s keeps
them unmatched). -/
def c1L : Frame := ⟨some ("TIMESTAMP", [Value.dt 0]), ["a"], [[Value.num 1]]⟩

def c1R : Frame := ⟨some ("TIMESTAMP", [Value.dt 100]), ["b"], [[Value.num 2]]⟩

/-! ## Helper lemmas -/

theorem mapE_error_of_mem {g : α → Except String β} {l : List α} {v : α} {e : String}
    (hv : v ∈ l) (hg : g v = .error e) : ∃ e2, mapE g l = .error e2 := by
  induction l with
  | nil => cases hv
  | cons a t ih =>
    rcases List.mem_cons.mp hv with rfl | hv2
    · exact ⟨e, by simp [mapE, hg]⟩
    · cases ha : g a with
      | error e3 => exact ⟨e3, by simp [mapE, ha]⟩
      | ok b =>
        obtain ⟨e2, he2⟩ := ih hv2
        exact ⟨e2, by simp [mapE, ha, he2]⟩

theorem mapE_ok_length {g : α → Except String β} :
    ∀ {l : List α} {bs : List β}, mapE g l = .ok bs → bs.length = l.length := by
  intro l
  induction l with
  | nil =>
    intro bs h
    simp only [mapE, Except.ok.injEq] at h
    simp [← h]
  | cons a t ih =>
    intro bs h
    cases ha : g a with
    | error e => simp [mapE, ha] at h
    | ok b =>
      cases ht : mapE g t with
      | error e => simp [mapE, ha, ht] at h
      | ok bs2 =>
        simp [mapE, ha, ht] at h
        simp [← h, ih ht]

theorem mapE_ok_getElem {g : α → Except String β} :
    ∀ {l : List α} {bs : List β} {k : Nat} {b : β}, mapE g l = .ok bs →
      bs[k]? = some b → ∃ a, l[k]? = some a ∧ g a = .ok b := by
  intro l
  induction l with
  | nil =>
    intro bs k b h hk
    simp only [mapE, Except.ok.injEq] at h
    simp [← h] at hk
  | cons a t ih =>
    intro bs k b h hk
    cases ha : g a with
    | error e => simp [mapE, ha] at h
    | ok b2 =>
      cases ht : mapE g t with
      | error e => simp [mapE, ha, ht] at h
      | ok bs2 =>
        simp [mapE, ha, ht] at h
        subst h
        cases k with
        | zero =>
          simp at hk
          exact ⟨a, by simp, by rw [ha, hk]⟩
        | succ k2 =>
          simp at hk
          obtain ⟨a2, h1, h2⟩ := ih ht hk
          exact ⟨a2, by simpa using h1, h2⟩

theorem chainLeB_of_pairwise :
    ∀ {l : List Value}, l.Pairwise (fun a b => vKey a ≤ vKey b) → chainLeB l = true := by
  intro l
  induction l with
  | nil => intro _; rfl
  | cons a t ih =>
    intro h
    cases t with
    | nil => rfl
    | cons b t2 =>
      rw [List.pairwise_cons] at h
      have hab : vKey a ≤ vKey b := h.1 b (List.mem_cons_self b t2)
      have ht : chainLeB (b :: t2) = true := ih h.2
      simp [chainLeB, hab, ht]

theorem set_index_ok_idx {c : String} {f f2 : Frame} (h : set_index c f = .ok f2) :
    ∃ vs, f2.idx = some (c, vs) := by
  unfold set_index at h
  cases hk : colIdx f c with
  | none => rw [hk] at h; cases h
  | some k =>
    rw [hk] at h
    cases h
    exact ⟨_, rfl⟩

theorem sort_index_sorted {f : Frame} {n : String} {vs : List Value}
    (h : f.idx = some (n, vs)) : idxSortedB (sort_index f) = true := by
  unfold sort_index
  rw [h]
  have hs : List.Sorted pairLe (List.insertionSort pairLe (vs.zip f.rows)) :=
    List.sorted_insertionSort pairLe (vs.zip f.rows)
  have hp : ((List.insertionSort pairLe (vs.zip f.rows)).map Prod.fst).Pairwise
      (fun a b => vKey a ≤ vKey b) :=
    @List.Pairwise.map Value (Value × List Value) pairLe
      (List.insertionSort pairLe (vs.zip f.rows))
      (fun a b => vKey a ≤ vKey b) Prod.fst (fun a b hab => hab) hs
  simpa [idxSortedB] using chainLeB_of_pairwise hp

/-! ## Claim C10 -/

/-- Claim C10: when either argument of `merge_datasets` is the empty
table that the readers return on failure, the merge raises (the shared
TIMESTAMP column is absent after resetting the index) instead of
returning an empty merged table, so the readers' never-raise policy does
not compose through the merge step. -/
theorem c10_merge_raises_on_empty :
    read_aeris (some c10Lines) = Frame.empty ∧
    merge_datasets (read_aeris (some c10Lines)) (read_aeris (some c10Lines))
        Direction.nearest 1 = .error "KeyError: TIMESTAMP" ∧
    merge_datasets Frame.empty Frame.empty Direction.nearest 1 =
      .error "KeyError: TIMESTAMP" := by
  refine ⟨?_, ?_, ?_⟩ <;> with_unfolding_all rfl

/-! ## Claim C2 -/

/-- Claim C2 (counterexample): the geo_map composite reader
`arc_data_dataframe` has no outer guard: on a missing file, or on a file
without the literal header-prefix line, it raises instead of printing a
diagnostic and returning an empty table. -/
theorem c2_counterexample :
    arc_data_dataframe (some ["hello", "1,2"]) =
      .error "NameError: name header_line_index is not defined" ∧
    arc_data_dataframe none = .error "FileNotFoundError" := by
  exact ⟨by with_unfolding_all rfl, rfl⟩

/-- Claim C2 (amended): the three data_ag readers (`read_ARC`,
`read_aeris`, `read_uwml`) never raise: every internal failure is caught
and surfaced as the empty table.  The geo_map composite variant
`arc_data_dataframe` propagates file-level failures to the caller. -/
theorem c2_amended (o1 o2 o3 : Option (List String)) (e1 e2 e3 : String)
    (h1 : readArcCore o1 = .error e1) (h2 : readAerisCore o2 = .error e2)
    (h3 : readUwmlCore o3 = .error e3) :
    read_ARC o1 = Frame.empty ∧ read_aeris o2 = Frame.empty ∧
      read_uwml o3 = Frame.empty ∧
      arc_data_dataframe none = .error "FileNotFoundError" := by
  refine ⟨?_, ?_, ?_, rfl⟩
  · simp [read_ARC, h1]
  · simp [read_aeris, h2]
  · simp [read_uwml, h3]

/-- Claim C2 (witness): the amended theorem applied to the missing-file
failure of each reader. -/
theorem c2_witness :
    read_ARC none = Frame.empty ∧ read_aeris none = Frame.empty ∧
      read_uwml none = Frame.empty ∧
      arc_data_dataframe none = .error "FileNotFoundError" :=
  c2_amended none none none "FileNotFoundError" "FileNotFoundError" "FileNotFoundError"
    rfl rfl rfl

/-! ## Claim C5 -/

/-- Claim C5 (counterexample): a composite file with a
`StartTime_seconds` column, no start-date line in the preamble, and a
full set of Year/Month/Day/Hour/Minute/Second columns: the claim says
strategy (b) composes a timestamp index, but the table comes back with
no timestamp index at all. -/
theorem c5_counterexample :
    scanStartDate c5Lines = .ok none ∧
    "StartTime_seconds" ∈ (read_ARC (some c5Lines)).cols ∧
    (∀ c ∈ yearColNames, c ∈ (read_ARC (some c5Lines)).cols) ∧
    (read_ARC (some c5Lines)).idx = none := by
  refine ⟨by with_unfolding_all rfl, by with_unfolding_all decide,
    by with_unfolding_all decide, by with_unfolding_all rfl⟩

/-- Claim C5 (amended): the Year/…/Second fallback is attempted only
when no `StartTime_seconds` column exists; when `StartTime_seconds`
exists but no reference start date can be found, the table is returned
unchanged — without a timestamp index — even if the six component
columns are all present. -/
theorem c5_amended (lines : List String) (hr : Nat) (f : Frame)
    (h1 : "StartTime_seconds" ∈ f.cols)
    (h2 : scanStartDate (lines.take hr) = .ok none) :
    arcTimestamp lines hr none f = .ok f := by
  simp [arcTimestamp, h1, h2]

/-- Claim C5 (witness): the amended theorem applied to the
counterexample file. -/
theorem c5_witness :
    "StartTime_seconds" ∈ c5Mid.cols ∧ scanStartDate (c5Lines.take 1) = .ok none ∧
      arcTimestamp c5Lines 1 none c5Mid = .ok c5Mid :=
  ⟨by with_unfolding_all decide, by with_unfolding_all rfl,
   c5_amended c5Lines 1 c5Mid (by with_unfolding_all decide) (by with_unfolding_all rfl)⟩

/-! ## Claim C6 -/

/-- Claim C6 (counterexample): a successfully parsed composite file none
of whose columns is a rename target: the projection step is skipped and
the column `Foo`, which is not in the rename map's target set, survives
in the returned table. -/
theorem c6_counterexample :
    readArcCore (some c6Lines) = .ok c6Out ∧
    "Foo" ∈ c6Out.cols ∧ "Foo" ∉ arcTargets := by
  refine ⟨by with_unfolding_all rfl, by with_unfolding_all decide, by decide⟩

/-- Claim C6 (amended): after a successful parse, either every column of
the returned table is in the rename map's target set, or no target
column exists at all — in which case the projection was skipped and all
columns survive. -/
theorem c6_amended (o : Option (List String)) (out : Frame)
    (h : readArcCore o = .ok out) :
    (∀ c ∈ out.cols, c ∈ arcTargets) ∨ (∀ c ∈ arcTargets, c ∉ out.cols) := by
  simp only [readArcCore] at h
  cases hpre : arcPreReplace o with
  | error e => rw [hpre] at h; cases h
  | ok f1 =>
    rw [hpre] at h
    have hout : out = projectArc (renameCols arcRenamePairs (replaceSentinels f1)) := by
      cases h; rfl
    subst hout
    set g := renameCols arcRenamePairs (replaceSentinels f1) with hg
    unfold projectArc
    cases hex : arcTargets.filter (fun c => g.cols.contains c) with
    | nil =>
      right
      intro c hc hmem
      have hnc := List.filter_eq_nil_iff.mp hex c hc
      simp only [if_pos rfl] at hmem
      exact hnc (by simpa [List.contains, List.elem_iff] using hmem)
    | cons d ds =>
      left
      intro c hc
      rw [if_neg (by simp : ¬(d :: ds : List String) = [])] at hc
      simp only [selectCols] at hc
      have hcf : c ∈ arcTargets.filter (fun c2 => g.cols.contains c2) := by
        rw [hex]
        simpa [selectCols] using hc
      exact List.mem_of_mem_filter hcf

/-- Claim C6 (witness): the amended theorem applied to the
counterexample file (the no-target-column disjunct holds there). -/
theorem c6_witness :
    readArcCore (some c6Lines) = .ok c6Out ∧
      ((∀ c ∈ c6Out.cols, c ∈ arcTargets) ∨ (∀ c ∈ arcTargets, c ∉ c6Out.cols)) :=
  ⟨by with_unfolding_all rfl, c6_amended (some c6Lines) c6Out (by with_unfolding_all rfl)⟩

/-! ## Claim C7 -/

/-- Claim C7 (counterexample): one weather-station row whose PC field
has no `*` does not leave the sibling rows intact: the whole read
returns the empty table, while the same file without the bad row parses
to one data row. -/
theorem c7_counterexample :
    read_uwml (some c7BadLines) = Frame.empty ∧
    (read_uwml (some c7GoodLines)).rows.length = 1 := by
  exact ⟨by with_unfolding_all rfl, by with_unfolding_all decide⟩

/-- Claim C7 (amended): for the gas-analyzer reader a malformed line is
skipped without touching its siblings (removing a skipped line from the
data leaves the parsed rows unchanged); for the weather-station reader a
single row whose composite time field cannot be split or parsed makes
the per-row transform raise, so the outer guard turns the whole file
into the empty table and all sibling rows are lost. -/
theorem c7_amended (n : Nat) (pre post : List String) (bad : String)
    (hbad : n < (splitCommas bad).length)
    (ls : List String) (f : Frame) (pc : List Value) (v : Value) (e : String)
    (h1 : uwmlCsv ls = .ok f)
    (h2 : colValues f "PC" = .ok pc)
    (h3 : v ∈ pc)
    (h4 : parse_uwml_timestamp v = .error e) :
    parseRowsSkip n (pre ++ bad :: post) = parseRowsSkip n (pre ++ post) ∧
    read_uwml (some ls) = Frame.empty := by
  constructor
  · simp [parseRowsSkip, List.filterMap_append, List.filterMap_cons, hbad]
  · obtain ⟨e2, he2⟩ := mapE_error_of_mem h3 h4
    simp [read_uwml, readUwmlCore, ofFile, h1, h2, he2]

/-- Claim C7 (witness): the amended theorem applied to a concrete
skipped line and to the counterexample weather-station file. -/
theorem c7_witness :
    parseRowsSkip 2 (["1,2"] ++ "1,2,3" :: []) = parseRowsSkip 2 (["1,2"] ++ []) ∧
    read_uwml (some c7BadLines) = Frame.empty :=
  c7_amended 2 ["1,2"] [] "1,2,3" (by with_unfolding_all decide) c7BadLines c7Csv c7Pc
    (Value.str "x") "IndexError: list index out of range"
    (by with_unfolding_all rfl) (by with_unfolding_all rfl)
    (by with_unfolding_all decide) (by with_unfolding_all rfl)

/-! ## Claim C8 -/

/-- Claim C8 (counterexample): a gas-analyzer file with two rows
carrying the identical timestamp parses to two rows whose index is not
strictly ascending (the sort is stable and keeps duplicates). -/
theorem c8_counterexample :
    (read_aeris (some c8Lines)).rows.length = 2 ∧
    idxStrict (read_aeris (some c8Lines)) = false := by
  exact ⟨by with_unfolding_all decide, by with_unfolding_all decide⟩

theorem readAerisCore_ok_sorted {o : Option (List String)} {f : Frame}
    (h : readAerisCore o = .ok f) : idxSortedB f = true := by
  cases h0 : ofFile o with
  | error e => simp [readAerisCore, h0] at h
  | ok lines =>
    cases h1 : aerisCsv lines with
    | error e => simp [readAerisCore, h0, h1] at h
    | ok f1 =>
      cases h2 : colValues f1 "Time Stamp" with
      | error e => simp [readAerisCore, h0, h1, h2] at h
      | ok ts =>
        cases h3 : set_index "TIMESTAMP" (setCol f1 "TIMESTAMP" (ts.map toDatetimeCoerce)) with
        | error e => simp [readAerisCore, h0, h1, h2, h3] at h
        | ok f3 =>
          simp only [readAerisCore, h0, h1, h2, h3, Except.ok.injEq] at h
          subst h
          obtain ⟨vs, hvs⟩ := set_index_ok_idx h3
          exact sort_index_sorted hvs

/-- Claim C8 (amended): the timestamp index `read_aeris` returns is
sorted non-decreasing (duplicates permitted, missing stamps last), and
the final raw line of the file never appears as a data row: the result
does not depend on the content of a non-blank final line. -/
theorem c8_amended (o : Option (List String)) (ls : List String) (a b : String)
    (ha : isBlankStr a = false) (hb : isBlankStr b = false)
    (hne : csvNonblank ls ≠ []) :
    idxSortedB (read_aeris o) = true ∧
    read_aeris (some (ls ++ [a])) = read_aeris (some (ls ++ [b])) := by
  constructor
  · cases hcore : readAerisCore o with
    | error e => simp [read_aeris, hcore, idxSortedB, Frame.empty]
    | ok f => simpa [read_aeris, hcore] using readAerisCore_ok_sorted hcore
  · have key : ∀ c : String, isBlankStr c = false →
        csvNonblank (ls ++ [c]) = csvNonblank ls ++ [c] := by
      intro c hc
      simp [csvNonblank, List.filter_append, hc]
    obtain ⟨hd, tl, hht⟩ := List.exists_cons_of_ne_nil hne
    have hcsv : aerisCsv (ls ++ [a]) = aerisCsv (ls ++ [b]) := by
      unfold aerisCsv
      rw [key a ha, key b hb, hht]
      simp [List.cons_append, List.dropLast_concat]
    simp only [read_aeris, readAerisCore, ofFile]
    rw [hcsv]

/-- Claim C8 (witness): the amended theorem applied to the duplicate
timestamp file and to two variants of a trailing artifact line. -/
theorem c8_witness :
    idxSortedB (read_aeris (some c8Lines)) = true ∧
    read_aeris (some (["Time Stamp,A", "08/01/2024 18:15:45.025,1"] ++ ["x"])) =
      read_aeris (some (["Time Stamp,A", "08/01/2024 18:15:45.025,1"] ++ ["y"])) :=
  c8_amended (some c8Lines) ["Time Stamp,A", "08/01/2024 18:15:45.025,1"] "x" "y"
    (by decide) (by decide) (by with_unfolding_all decide)

/-! ## Claim C9 -/

theorem strideAux_length (l : List α) : ∀ k : Nat,
    (strideAux k l).length = (l.length - k + 24) / 25 := by
  induction l with
  | nil =>
    intro k
    simp [strideAux, Nat.div_eq_of_lt]
  | cons x xs ih =>
    intro k
    cases k with
    | zero =>
      simp only [strideAux, List.length_cons, ih 24, Nat.sub_zero]
      have h25 : xs.length + 1 + 24 = xs.length + 25 := by omega
      rw [h25, Nat.add_div_right _ (by omega : 0 < 25)]
      rcases Nat.le_total 24 xs.length with hle | hle
      · rw [Nat.sub_add_cancel hle]
      · rw [Nat.div_eq_of_lt (by omega : xs.length - 24 + 24 < 25),
          Nat.div_eq_of_lt (by omega : xs.length < 25)]
    | succ k2 =>
      simp only [strideAux, List.length_cons, ih k2]
      congr 1
      omega

theorem strideRows_length (l : List α) : (strideRows l).length = (l.length + 24) / 25 := by
  simpa [strideRows] using strideAux_length l 0

theorem strideAux_getElem (l : List α) : ∀ k j : Nat,
    (strideAux k l)[j]? = l[k + 25 * j]? := by
  induction l with
  | nil => intro k j; simp [strideAux]
  | cons x xs ih =>
    intro k j
    cases k with
    | zero =>
      cases j with
      | zero => simp [strideAux]
      | succ j2 =>
        have hidx : 0 + 25 * (j2 + 1) = (24 + 25 * j2) + 1 := by omega
        rw [hidx]
        simp only [strideAux, List.getElem?_cons_succ]
        exact ih 24 j2
    | succ k2 =>
      have hidx : k2 + 1 + 25 * j = (k2 + 25 * j) + 1 := by omega
      rw [hidx]
      simp only [strideAux, List.getElem?_cons_succ]
      exact ih k2 j

theorem strideRows_getElem (l : List α) (j : Nat) : (strideRows l)[j]? = l[25 * j]? := by
  simpa [strideRows] using strideAux_getElem l 0 j

theorem cellOfE_ok {f : Frame} {row : List Value} {c : String} {v : Value}
    (h : cellOfE f row c = .ok v) : cellOf f row c = v := by
  unfold cellOfE at h
  unfold cellOf
  cases hk : colIdx f c with
  | none => rw [hk] at h; simp at h
  | some k => rw [hk] at h; simpa using h

theorem glyphOfRow_spec {f : Frame} {lo hi : Value} {row : List Value} {g : Glyph}
    (h : glyphOfRow f lo hi row = .ok g) :
    g.rot = cellOf f row "true_WD_deg" ∧
    (cellOf f row "true_WS_m_s" = Value.null → g.color = GlyphColor.neutral) ∧
    (∀ q, cellOf f row "true_WS_m_s" = Value.num q →
      g.color = GlyphColor.scaled lo hi q) := by
  cases e1 : cellOfE f row "lat_DGPS_deg" with
  | error e => simp [glyphOfRow, e1] at h
  | ok lat =>
    cases e2 : cellOfE f row "lon_DGPS_deg" with
    | error e => simp [glyphOfRow, e1, e2] at h
    | ok lon =>
      cases e3 : cellOfE f row "true_WS_m_s" with
      | error e => simp [glyphOfRow, e1, e2, e3] at h
      | ok ws =>
        cases e4 : cellOfE f row "true_WD_deg" with
        | error e => simp [glyphOfRow, e1, e2, e3, e4] at h
        | ok wd =>
          cases e5 : glyphColorOf lo hi ws with
          | error e => simp [glyphOfRow, e1, e2, e3, e4, e5] at h
          | ok c =>
            simp only [glyphOfRow, e1, e2, e3, e4, e5, Except.ok.injEq] at h
            subst h
            have hws := cellOfE_ok e3
            have hwd := cellOfE_ok e4
            refine ⟨by simp [hwd], ?_, ?_⟩
            · intro hnull
              rw [hws] at hnull
              subst hnull
              simp only [glyphColorOf, Except.ok.injEq] at e5
              simp [← e5]
            · intro q hq
              rw [hws] at hq
              subst hq
              simp only [glyphColorOf, Except.ok.injEq] at e5
              simp [← e5]

/-- Claim C9 (counterexample): with chosen magnitude column `foo`, the
single sampled glyph is colored neutral even though the `foo` value of
that row is the non-null 5: the glyph color is driven by the hardcoded
wind-speed field, not by the chosen magnitude column. -/
theorem c9_counterexample :
    add_vector_map c9Frame "foo" = .ok c9Layer ∧
    c9Layer.glyphs = [⟨Value.num 1, Value.num 2, Value.num 90, GlyphColor.neutral⟩] ∧
    cellOf c9Frame [Value.num 1, Value.num 2, Value.null, Value.num 90, Value.num 5] "foo" =
      Value.num 5 :=
  ⟨by with_unfolding_all rfl, rfl, by with_unfolding_all rfl⟩

/-- Claim C9 (amended): the overlay samples exactly every 25th row and
rotates each glyph by the `true_WD_deg` cell of its row; the glyph color
comes from the hardcoded `true_WS_m_s` cell through the diverging scale
whose bounds are the chosen column's 1st/99th percentiles — neutral when
the wind speed (not the chosen magnitude) is null.  Only when the chosen
column is `true_WS_m_s` itself (the sole call-site usage) does the color
track the chosen magnitude. -/
theorem c9_amended (f : Frame) (col : String) (L : VectorLayer)
    (h : add_vector_map f col = .ok L) :
    L.glyphs.length = (f.rows.length + 24) / 25 ∧
    ∀ k g, L.glyphs[k]? = some g → ∃ row, f.rows[25 * k]? = some row ∧
      g.rot = cellOf f row "true_WD_deg" ∧
      (cellOf f row "true_WS_m_s" = Value.null → g.color = GlyphColor.neutral) ∧
      (∀ q, cellOf f row "true_WS_m_s" = Value.num q →
        g.color = GlyphColor.scaled L.lo L.hi q) := by
  cases h0 : colValues f col with
  | error e => simp [add_vector_map, h0] at h
  | ok vs =>
    cases h1 : mapE (glyphOfRow f (quantileV (1 / 100) vs) (quantileV (99 / 100) vs))
        (strideRows f.rows) with
    | error e =>
      simp only [add_vector_map, h0, h1] at h
      exact Except.noConfusion h
    | ok gs =>
      simp only [add_vector_map, h0, h1, Except.ok.injEq] at h
      subst h
      constructor
      · exact (mapE_ok_length h1).trans (strideRows_length f.rows)
      · intro k g hk
        obtain ⟨row, hrow, hg⟩ := mapE_ok_getElem h1 hk
        refine ⟨row, ?_, glyphOfRow_spec hg⟩
        rw [← strideRows_getElem]
        exact hrow

/-- Claim C9 (witness): the amended theorem applied to the concrete
table of the counterexample. -/
theorem c9_witness :
    add_vector_map c9Frame "foo" = .ok c9Layer ∧
      (c9Layer.glyphs.length = (c9Frame.rows.length + 24) / 25 ∧
       ∀ k g, c9Layer.glyphs[k]? = some g → ∃ row, c9Frame.rows[25 * k]? = some row ∧
         g.rot = cellOf c9Frame row "true_WD_deg" ∧
         (cellOf c9Frame row "true_WS_m_s" = Value.null → g.color = GlyphColor.neutral) ∧
         (∀ q, cellOf c9Frame row "true_WS_m_s" = Value.num q →
           g.color = GlyphColor.scaled c9Layer.lo c9Layer.hi q)) :=
  ⟨by with_unfolding_all rfl,
   c9_amended c9Frame "foo" c9Layer (by with_unfolding_all rfl)⟩

/-! ## Claim C4 -/

theorem digitChar_isDigit {k : Nat} (h : k < 10) : (digitChar k).isDigit = true := by
  interval_cases k <;> decide

theorem digitChar_toNat {k : Nat} (h : k < 10) : (digitChar k).toNat - 48 = k := by
  interval_cases k <;> decide

theorem digitChar_ne_star {k : Nat} (h : k < 10) : digitChar k ≠ '*' := by
  interval_cases k <;> decide

theorem fmtL_length (w : Nat) : ∀ n, (fmtL w n).length = w := by
  induction w with
  | zero => intro n; rfl
  | succ w2 ih => intro n; simp [fmtL, ih]

theorem fmtL_all_digit (w : Nat) : ∀ n, (fmtL w n).all Char.isDigit = true := by
  induction w with
  | zero => intro n; rfl
  | succ w2 ih =>
    intro n
    simp [fmtL, ih, digitChar_isDigit (Nat.mod_lt n (by omega))]

theorem fmtL_not_star (w : Nat) : ∀ n, '*' ∉ fmtL w n := by
  induction w with
  | zero => intro n h; cases h
  | succ w2 ih =>
    intro n h
    rcases List.mem_append.mp h with h1 | h1
    · exact ih _ h1
    · simp only [List.mem_singleton] at h1
      exact digitChar_ne_star (Nat.mod_lt n (by omega)) h1.symm

theorem digitsToNat_go (b : List Char) : ∀ init : Nat,
    b.foldl (fun a c => 10 * a + (c.toNat - 48)) init =
      init * 10 ^ b.length + digitsToNat b := by
  induction b with
  | nil => intro init; simp [digitsToNat]
  | cons c t ih =>
    intro init
    simp only [List.foldl_cons, List.length_cons]
    rw [ih (10 * init + (c.toNat - 48))]
    have h2 : digitsToNat (c :: t) = (c.toNat - 48) * 10 ^ t.length + digitsToNat t := by
      simp only [digitsToNat, List.foldl_cons]
      rw [ih (10 * 0 + (c.toNat - 48))]
      simp only [digitsToNat]
      ring
    rw [h2]
    ring

theorem digitsToNat_append (a b : List Char) :
    digitsToNat (a ++ b) = digitsToNat a * 10 ^ b.length + digitsToNat b := by
  have h := digitsToNat_go b (digitsToNat a)
  simpa [digitsToNat, List.foldl_append] using h

theorem fmtL_toNat (w : Nat) : ∀ n, n < 10 ^ w → digitsToNat (fmtL w n) = n := by
  induction w with
  | zero =>
    intro n h
    have hn : n = 0 := by simpa using h
    subst hn
    rfl
  | succ w2 ih =>
    intro n h
    have hdiv : n / 10 < 10 ^ w2 := by
      refine Nat.div_lt_of_lt_mul ?_
      rw [pow_succ] at h
      omega
    have h1 : digitsToNat (fmtL w2 (n / 10)) = n / 10 := ih _ hdiv
    have h2 : digitsToNat [digitChar (n % 10)] = n % 10 := by
      simp [digitsToNat, digitChar_toNat (Nat.mod_lt n (by omega))]
    simp only [fmtL]
    rw [digitsToNat_append, h1, h2]
    simp only [List.length_singleton, pow_one]
    omega

theorem splitOnChar_not_mem {sep : Char} : ∀ {cs : List Char}, sep ∉ cs →
    splitOnChar sep cs = [cs] := by
  intro cs
  induction cs with
  | nil => intro _; rfl
  | cons c t ih =>
    intro h
    have hc : ¬(c = sep) := fun e => h (e ▸ List.mem_cons_self c t)
    have ht : sep ∉ t := fun m => h (List.mem_cons_of_mem c m)
    simp [splitOnChar, hc, ih ht]

theorem splitOnChar_mid {sep : Char} : ∀ (a b : List Char), sep ∉ a → sep ∉ b →
    splitOnChar sep (a ++ sep :: b) = [a, b] := by
  intro a
  induction a with
  | nil =>
    intro b _ hb
    simp [splitOnChar, splitOnChar_not_mem hb]
  | cons c t ih =>
    intro b ha hb
    have hc : ¬(c = sep) := fun e => ha (e ▸ List.mem_cons_self c t)
    have ht : sep ∉ t := fun m => ha (List.mem_cons_of_mem c m)
    simp [splitOnChar, hc, ih b ht hb]

theorem daysInMonth_le (y : Int) (m : Nat) : daysInMonth y m ≤ 31 := by
  unfold daysInMonth
  split
  · split <;> omega
  · split <;> omega

theorem strptime_fmt (y mo d h mi s : Nat)
    (hy1 : 1 ≤ y) (hy2 : y ≤ 9999) (hmo1 : 1 ≤ mo) (hmo2 : mo ≤ 12)
    (hd1 : 1 ≤ d) (hd2 : d ≤ daysInMonth (y : Int) mo)
    (hh : h ≤ 23) (hmi : mi ≤ 59) (hs : s ≤ 59) :
    strptimeYmdHMS
      ((fmtL 4 y ++ fmtL 2 mo ++ fmtL 2 d) ++ (fmtL 2 h ++ fmtL 2 mi ++ fmtL 2 s)) =
      .ok (.dt (dtSecs (y : Int) mo d h mi s 0)) := by
  set A := fmtL 4 y with hA
  set B := fmtL 2 mo with hB
  set C := fmtL 2 d with hC
  set D := fmtL 2 h with hD
  set E := fmtL 2 mi with hE
  set F := fmtL 2 s with hF
  set cs := (A ++ B ++ C) ++ (D ++ E ++ F) with hcs
  have lA : A.length = 4 := fmtL_length 4 y
  have lB : B.length = 2 := fmtL_length 2 mo
  have lC : C.length = 2 := fmtL_length 2 d
  have lD : D.length = 2 := fmtL_length 2 h
  have lE : E.length = 2 := fmtL_length 2 mi
  have lF : F.length = 2 := fmtL_length 2 s
  have hlen : cs.length = 14 := by
    simp [hcs, lA, lB, lC, lD, lE, lF]
  have hall : cs.all Char.isDigit = true := by
    simp [hcs, hA, hB, hC, hD, hE, hF, fmtL_all_digit]
  have a1 : cs = A ++ (B ++ (C ++ (D ++ (E ++ F)))) := by simp [hcs, List.append_assoc]
  have a2 : cs = (A ++ B) ++ (C ++ (D ++ (E ++ F))) := by simp [hcs, List.append_assoc]
  have a3 : cs = (A ++ B ++ C) ++ (D ++ (E ++ F)) := by simp [hcs, List.append_assoc]
  have a4 : cs = (A ++ B ++ C ++ D) ++ (E ++ F) := by simp [hcs, List.append_assoc]
  have a5 : cs = (A ++ B ++ C ++ D ++ E) ++ F := by simp [hcs, List.append_assoc]
  have t4 : cs.take 4 = A := by rw [a1]; exact List.take_left' lA
  have d4 : (cs.drop 4).take 2 = B := by
    rw [a1, List.drop_left' lA]
    exact List.take_left' lB
  have d6 : (cs.drop 6).take 2 = C := by
    rw [a2, List.drop_left' (by simp [lA, lB])]
    exact List.take_left' lC
  have d8 : (cs.drop 8).take 2 = D := by
    rw [a3, List.drop_left' (by simp [lA, lB, lC])]
    exact List.take_left' lD
  have d10 : (cs.drop 10).take 2 = E := by
    rw [a4, List.drop_left' (by simp [lA, lB, lC, lD])]
    exact List.take_left' lE
  have d12 : (cs.drop 12).take 2 = F := by
    rw [a5, List.drop_left' (by simp [lA, lB, lC, lD, lE])]
    exact List.take_left' lF
  have vA : digitsToNat A = y := fmtL_toNat 4 y (by omega)
  have vB : digitsToNat B = mo := fmtL_toNat 2 mo (by omega)
  have vC : digitsToNat C = d := by
    have h31 := daysInMonth_le (y : Int) mo
    exact fmtL_toNat 2 d (by omega)
  have vD : digitsToNat D = h := fmtL_toNat 2 h (by omega)
  have vE : digitsToNat E = mi := fmtL_toNat 2 mi (by omega)
  have vF : digitsToNat F = s := fmtL_toNat 2 s (by omega)
  unfold strptimeYmdHMS
  rw [if_pos ⟨hlen, hall⟩]
  simp only [t4, d4, d6, d8, d10, d12, vA, vB, vC, vD, vE, vF]
  rw [if_pos ⟨hy1, hmo1, hmo2, hd1, hd2, hh, hmi, hs⟩]

/-- Claim C4: a well-formed weather-station composite time field
`HHMMSS*YYYYMMDD` (zero-padded digit groups denoting a valid date-time)
parses to exactly the date-time those digits denote. -/
theorem c4_uwml_roundtrip (y mo d h mi s : Nat)
    (hy1 : 1 ≤ y) (hy2 : y ≤ 9999) (hmo1 : 1 ≤ mo) (hmo2 : mo ≤ 12)
    (hd1 : 1 ≤ d) (hd2 : d ≤ daysInMonth (y : Int) mo)
    (hh : h ≤ 23) (hmi : mi ≤ 59) (hs : s ≤ 59) :
    parse_uwml_timestamp
      (Value.str (fmtS 2 h ++ fmtS 2 mi ++ fmtS 2 s ++ "*" ++ fmtS 4 y ++ fmtS 2 mo ++ fmtS 2 d)) =
      .ok (.dt (dtSecs (y : Int) mo d h mi s 0)) := by
  have hstar1 : '*' ∉ fmtL 2 h ++ (fmtL 2 mi ++ fmtL 2 s) := by
    intro hmem
    rcases List.mem_append.mp hmem with h1 | h1
    · exact fmtL_not_star 2 h h1
    · rcases List.mem_append.mp h1 with h2 | h2
      · exact fmtL_not_star 2 mi h2
      · exact fmtL_not_star 2 s h2
  have hstar2 : '*' ∉ fmtL 4 y ++ (fmtL 2 mo ++ fmtL 2 d) := by
    intro hmem
    rcases List.mem_append.mp hmem with h1 | h1
    · exact fmtL_not_star 4 y h1
    · rcases List.mem_append.mp h1 with h2 | h2
      · exact fmtL_not_star 2 mo h2
      · exact fmtL_not_star 2 d h2
  have hdata :
      (fmtS 2 h ++ fmtS 2 mi ++ fmtS 2 s ++ "*" ++ fmtS 4 y ++ fmtS 2 mo ++ fmtS 2 d).data =
        (fmtL 2 h ++ (fmtL 2 mi ++ fmtL 2 s)) ++ '*' :: (fmtL 4 y ++ (fmtL 2 mo ++ fmtL 2 d)) := by
    simp [fmtS, String.data_append, List.append_assoc]
  unfold parse_uwml_timestamp
  dsimp only [pyStr]
  rw [hdata, splitOnChar_mid _ _ hstar1 hstar2]
  simp only [List.getD, List.getElem?_cons_zero, List.getElem?_cons_succ, Option.getD_some]
  have hfinal := strptime_fmt y mo d h mi s hy1 hy2 hmo1 hmo2 hd1 hd2 hh hmi hs
  simpa [List.append_assoc] using hfinal

/-- Claim C4 (witness): the raw field `151844*20240801` yields the
timestamp 2024-08-01 15:18:44. -/
theorem c4_witness :
    parse_uwml_timestamp (Value.str "151844*20240801") =
      .ok (.dt (dtSecs 2024 8 1 15 18 44 0)) := by
  have hlit : (fmtS 2 15 ++ fmtS 2 18 ++ fmtS 2 44 ++ "*" ++
      fmtS 4 2024 ++ fmtS 2 8 ++ fmtS 2 1) = "151844*20240801" := by decide
  have h := c4_uwml_roundtrip 2024 8 1 15 18 44 (by omega) (by omega) (by omega) (by omega)
    (by omega) (by decide) (by omega) (by omega) (by omega)
  rw [← hlit]
  exact h

/-! ## Claim C3 -/

theorem getD_mem_or (l : List α) (k : Nat) (d : α) : l.getD k d ∈ l ∨ l.getD k d = d := by
  by_cases hk : k < l.length
  · left
    rw [List.getD_eq_getElem l d hk]
    exact List.getElem_mem hk
  · right
    exact List.getD_eq_default l d (by omega)

theorem selectCols_cells {cs : List String} {f : Frame} {row : List Value} {v : Value}
    (hrow : row ∈ (selectCols cs f).rows) (hv : v ∈ row) :
    v = Value.null ∨ ∃ row2 ∈ f.rows, v ∈ row2 := by
  unfold selectCols at hrow
  simp only [List.mem_map] at hrow
  obtain ⟨row0, h0, rfl⟩ := hrow
  simp only [List.mem_map] at hv
  obtain ⟨c, _, rfl⟩ := hv
  unfold cellOf
  cases hk : colIdx f c with
  | none => left; rfl
  | some k =>
    rcases getD_mem_or row0 k Value.null with hm | hd
    · right; exact ⟨row0, h0, hm⟩
    · left; exact hd

theorem replVal_not_sentinel (v : Value) : isSentinelV (replVal v) = false := by
  unfold replVal
  by_cases h : isSentinelV v = true
  · rw [if_pos h]; rfl
  · rw [if_neg h]; simpa using h

theorem replVal_or (v : Value) : replVal v = Value.null ∨ replVal v = v := by
  unfold replVal
  split
  · exact Or.inl rfl
  · exact Or.inr rfl

/-- Claim C3: in every table the curated reader `read_ARC` successfully
returns, no cell is one of the sentinels -99999 (= -99999.0), -77777,
-88888; and every non-null cell is carried through unaltered — it occurs
verbatim in the parsed data as it stood just before the sentinel
replacement step. -/
theorem c3_sentinels (o : Option (List String)) (mid out : Frame)
    (h1 : arcPreReplace o = .ok mid) (h2 : readArcCore o = .ok out) :
    (∀ row ∈ out.rows, ∀ v ∈ row, isSentinelV v = false) ∧
    (∀ row ∈ out.rows, ∀ v ∈ row, v = Value.null ∨ ∃ row2 ∈ mid.rows, v ∈ row2) := by
  have hout : out = projectArc (renameCols arcRenamePairs (replaceSentinels mid)) := by
    simp only [readArcCore, h1, Except.ok.injEq] at h2
    exact h2.symm
  subst hout
  have hcell : ∀ row ∈ (projectArc (renameCols arcRenamePairs (replaceSentinels mid))).rows,
      ∀ v ∈ row, v = Value.null ∨ ∃ row2 ∈ (replaceSentinels mid).rows, v ∈ row2 := by
    intro row hrow v hv
    simp only [projectArc] at hrow
    split at hrow
    · right
      exact ⟨row, hrow, hv⟩
    · rcases selectCols_cells hrow hv with hn | ⟨row2, hr2, hv2⟩
      · exact Or.inl hn
      · exact Or.inr ⟨row2, hr2, hv2⟩
  constructor
  · intro row hrow v hv
    rcases hcell row hrow v hv with rfl | ⟨row2, hr2, hv2⟩
    · rfl
    · unfold replaceSentinels at hr2
      simp only [List.mem_map] at hr2
      obtain ⟨row0, _, rfl⟩ := hr2
      simp only [List.mem_map] at hv2
      obtain ⟨u, _, rfl⟩ := hv2
      exact replVal_not_sentinel u
  · intro row hrow v hv
    rcases hcell row hrow v hv with rfl | ⟨row2, hr2, hv2⟩
    · left; rfl
    · unfold replaceSentinels at hr2
      simp only [List.mem_map] at hr2
      obtain ⟨row0, h0, rfl⟩ := hr2
      simp only [List.mem_map] at hv2
      obtain ⟨u, hu, rfl⟩ := hv2
      rcases replVal_or u with hn | he
      · left; exact hn
      · right
        refine ⟨row0, h0, ?_⟩
        rw [he]
        exact hu

/-- Claim C3 (witness): a composite file whose raw data holds a -77777
sentinel next to an ordinary value, with the conclusions instantiated at
the computed pre-replacement and output frames. -/
theorem c3_witness :
    arcPreReplace (some c3Lines) = .ok c3Mid ∧ readArcCore (some c3Lines) = .ok c3Out ∧
      ((∀ row ∈ c3Out.rows, ∀ v ∈ row, isSentinelV v = false) ∧
       (∀ row ∈ c3Out.rows, ∀ v ∈ row, v = Value.null ∨ ∃ row2 ∈ c3Mid.rows, v ∈ row2)) :=
  ⟨by with_unfolding_all rfl, by with_unfolding_all rfl,
   c3_sentinels (some c3Lines) c3Mid c3Out (by with_unfolding_all rfl)
     (by with_unfolding_all rfl)⟩

/-! ## Claim C1 -/

theorem dirPick_none {dir : Direction} {tol t : ℚ} {ps : List (ℚ × List Value)}
    (h : ∀ p ∈ ps, tol < |p.1 - t|) : dirPick dir tol ps t = none := by
  have hbw : ∀ p, (ps.filter (fun p => decide (p.1 ≤ t))).getLast? = some p →
      ¬(t - p.1 ≤ tol) := by
    intro p hp hle
    have hfil := List.mem_filter.mp (List.mem_of_mem_getLast? hp)
    have hple : p.1 ≤ t := by simpa using hfil.2
    have htp := h p hfil.1
    have habs : |p.1 - t| = t - p.1 := by
      rw [abs_of_nonpos (by linarith)]
      ring
    rw [habs] at htp
    linarith
  have hfw : ∀ p, (ps.filter (fun p => decide (t ≤ p.1))).head? = some p →
      ¬(p.1 - t ≤ tol) := by
    intro p hp hle
    have hfil := List.mem_filter.mp (List.mem_of_mem_head? hp)
    have hple : t ≤ p.1 := by simpa using hfil.2
    have htp := h p hfil.1
    have habs : |p.1 - t| = p.1 - t := abs_of_nonneg (by linarith)
    rw [habs] at htp
    linarith
  cases dir with
  | backward =>
    cases hbp : (ps.filter (fun p => decide (p.1 ≤ t))).getLast? with
    | none => simp [dirPick, bwPick, hbp]
    | some p => simp [dirPick, bwPick, hbp, hbw p hbp]
  | forward =>
    cases hfp : (ps.filter (fun p => decide (t ≤ p.1))).head? with
    | none => simp [dirPick, fwPick, hfp]
    | some p => simp [dirPick, fwPick, hfp, hfw p hfp]
  | nearest =>
    cases hbp : (ps.filter (fun p => decide (p.1 ≤ t))).getLast? with
    | none =>
      cases hfp : (ps.filter (fun p => decide (t ≤ p.1))).head? with
      | none => simp [dirPick, nearPick, hbp, hfp]
      | some q => simp [dirPick, nearPick, hbp, hfp, hfw q hfp]
    | some p =>
      cases hfp : (ps.filter (fun p => decide (t ≤ p.1))).head? with
      | none => simp [dirPick, nearPick, hbp, hfp, hbw p hbp]
      | some q => simp [dirPick, nearPick, hbp, hfp, hbw p hbp, hfw q hfp]

theorem mem_zip_map_pair {f : α → β} {g2 : α → γ} {x : α} :
    ∀ {xs : List α}, x ∈ xs → (f x, g2 x) ∈ (xs.map f).zip (xs.map g2) := by
  intro xs
  induction xs with
  | nil => intro h; cases h
  | cons a t ih =>
    intro h
    simp only [List.map_cons, List.zip_cons_cons]
    rcases List.mem_cons.mp h with rfl | h2
    · exact List.mem_cons_self _ _
    · exact List.mem_cons_of_mem _ (ih h2)

theorem zip_pair_helper (xs : List (List Value)) (x : List Value) (hx : x ∈ xs)
    (t : Value) (rest : List Value) (hx2 : x = t :: rest) :
    (t, rest) ∈
      ((xs.map (fun row => row.getD 0 Value.null)).zip (xs.map (fun row => row.eraseIdx 0))) := by
  subst hx2
  have h : ((t :: rest).getD 0 Value.null, (t :: rest).eraseIdx 0) ∈
      ((xs.map (fun row => row.getD 0 Value.null)).zip (xs.map (fun row => row.eraseIdx 0))) :=
    mem_zip_map_pair hx
  simpa using h

/-- Claim C1: for every pair of well-formed time-indexed tables (a
TIMESTAMP index of datetime stamps, one per row, no clashing TIMESTAMP
column), every direction and every (non-negative) tolerance,
`merge_datasets` succeeds with exactly as many rows as the left table,
and every left row whose timestamp has no right-table stamp within the
tolerance appears in the output paired with its timestamp and its
right-side fields null-filled. -/
theorem c1_merge_outer_left (l r : Frame) (lkeys rkeys : List Value) (dir : Direction) (tol : ℚ)
    (hl : l.idx = some ("TIMESTAMP", lkeys)) (hr : r.idx = some ("TIMESTAMP", rkeys))
    (hlc : "TIMESTAMP" ∉ l.cols) (hrc : "TIMESTAMP" ∉ r.cols)
    (hllen : lkeys.length = l.rows.length) (hrlen : rkeys.length = r.rows.length)
    (hldt : ∀ v ∈ lkeys, isDtV v = true) (hrdt : ∀ v ∈ rkeys, isDtV v = true)
    (htol : 0 ≤ tol) :
    ∃ m, merge_datasets l r dir tol = .ok m ∧
      m.rows.length = l.rows.length ∧
      ∀ t row, (t, row) ∈ lkeys.zip l.rows →
        (∀ u ∈ rkeys, tol < |qOf u - qOf t|) →
        (t, row ++ List.replicate r.cols.length Value.null) ∈ (idxVals m).zip m.rows := by
  set Lrows := (lkeys.zip l.rows).map (fun p => p.1 :: p.2) with hLr
  set Rrows := (rkeys.zip r.rows).map (fun p => p.1 :: p.2) with hRr
  set LS := List.insertionSort (rowLe 0) Lrows with hLSdef
  set RS := List.insertionSort (rowLe 0) Rrows with hRSdef
  have h1 : reset_index l = .ok ⟨none, "TIMESTAMP" :: l.cols, Lrows⟩ := by
    simp [reset_index, hl, hlc, hLr]
  have h2 : reset_index r = .ok ⟨none, "TIMESTAMP" :: r.cols, Rrows⟩ := by
    simp [reset_index, hr, hrc, hRr]
  have h3 : sort_values "TIMESTAMP" ⟨none, "TIMESTAMP" :: l.cols, Lrows⟩ =
      .ok ⟨none, "TIMESTAMP" :: l.cols, LS⟩ := by
    simp [sort_values, colIdx, List.findIdx?_cons, hLSdef]
  have h4 : sort_values "TIMESTAMP" ⟨none, "TIMESTAMP" :: r.cols, Rrows⟩ =
      .ok ⟨none, "TIMESTAMP" :: r.cols, RS⟩ := by
    simp [sort_values, colIdx, List.findIdx?_cons, hRSdef]
  have hLmem : ∀ srow ∈ LS, ∃ p ∈ lkeys.zip l.rows, srow = p.1 :: p.2 := by
    intro srow hs
    have h5 : srow ∈ Lrows := ((List.perm_insertionSort (rowLe 0) Lrows).mem_iff).mp hs
    rw [hLr] at h5
    simp only [List.mem_map] at h5
    obtain ⟨p, hp, he⟩ := h5
    exact ⟨p, hp, he.symm⟩
  have hRmem : ∀ srow ∈ RS, ∃ p ∈ rkeys.zip r.rows, srow = p.1 :: p.2 := by
    intro srow hs
    have h5 : srow ∈ Rrows := ((List.perm_insertionSort (rowLe 0) Rrows).mem_iff).mp hs
    rw [hRr] at h5
    simp only [List.mem_map] at h5
    obtain ⟨p, hp, he⟩ := h5
    exact ⟨p, hp, he.symm⟩
  have hallL : ((LS.map (fun row => row.getD 0 Value.null)).all isDtV) = true := by
    rw [List.all_eq_true]
    intro x hx
    simp only [List.mem_map] at hx
    obtain ⟨srow, hs, rfl⟩ := hx
    obtain ⟨p, hp, rfl⟩ := hLmem srow hs
    exact hldt p.1 (List.of_mem_zip hp).1
  have hallR : ((RS.map (fun row => row.getD 0 Value.null)).all isDtV) = true := by
    rw [List.all_eq_true]
    intro x hx
    simp only [List.mem_map] at hx
    obtain ⟨srow, hs, rfl⟩ := hx
    obtain ⟨p, hp, rfl⟩ := hRmem srow hs
    exact hrdt p.1 (List.of_mem_zip hp).1
  have hchainL : chainLeB (LS.map (fun row => row.getD 0 Value.null)) = true := by
    refine chainLeB_of_pairwise ?_
    have hs := List.sorted_insertionSort (rowLe 0) Lrows
    rw [← hLSdef] at hs
    exact @List.Pairwise.map Value (List Value) (rowLe 0) LS (fun a b => vKey a ≤ vKey b)
      (fun row => row.getD 0 Value.null) (fun a b hab => hab) hs
  have hchainR : chainLeB (RS.map (fun row => row.getD 0 Value.null)) = true := by
    refine chainLeB_of_pairwise ?_
    have hs := List.sorted_insertionSort (rowLe 0) Rrows
    rw [← hRSdef] at hs
    exact @List.Pairwise.map Value (List Value) (rowLe 0) RS (fun a b => vKey a ≤ vKey b)
      (fun row => row.getD 0 Value.null) (fun a b hab => hab) hs
  have hki : colIdx ⟨none, "TIMESTAMP" :: l.cols, LS⟩ "TIMESTAMP" = some 0 := by
    simp [colIdx, List.findIdx?_cons]
  have hkj : colIdx ⟨none, "TIMESTAMP" :: r.cols, RS⟩ "TIMESTAMP" = some 0 := by
    simp [colIdx, List.findIdx?_cons]
  set rpairs := RS.map (fun row2 => (qOf (row2.getD 0 Value.null), row2.eraseIdx 0)) with hrp
  set MROWS := LS.map (fun row => row ++
      (match dirPick dir tol rpairs (qOf (row.getD 0 Value.null)) with
       | some rr => rr
       | none => List.replicate r.cols.length Value.null)) with hMR
  refine ⟨⟨some ("TIMESTAMP", MROWS.map (fun row => row.getD 0 Value.null)),
      l.cols.map (fun c => if c ≠ "TIMESTAMP" ∧ r.cols.contains c then c ++ "_aeris" else c) ++
        r.cols.map (fun c => if l.cols.contains c then c ++ "_wx" else c),
      MROWS.map (fun row => row.eraseIdx 0)⟩, ?_, ?_, ?_⟩
  · simp only [merge_datasets, h1, h2, h3, h4]
    simp only [merge_asof, hki, hkj]
    rw [if_neg (not_lt.mpr htol)]
    have hc1 : ¬((!((LS.map (fun row => row.getD 0 Value.null)).all isDtV &&
        (RS.map (fun row => row.getD 0 Value.null)).all isDtV)) = true) := by
      rw [hallL, hallR]
      simp
    rw [if_neg hc1]
    have hc2 : ¬((!(chainLeB (LS.map (fun row => row.getD 0 Value.null)) &&
        chainLeB (RS.map (fun row => row.getD 0 Value.null)))) = true) := by
      rw [hchainL, hchainR]
      simp
    rw [if_neg hc2]
    rfl
  · simp only [List.length_map]
    rw [hMR]
    simp only [List.length_map]
    rw [hLSdef, (List.perm_insertionSort (rowLe 0) Lrows).length_eq, hLr]
    simp [List.length_zip, hllen]
  · intro t row hmem hno
    have hsrow : (t :: row) ∈ Lrows := by
      rw [hLr]
      exact List.mem_map.mpr ⟨(t, row), hmem, rfl⟩
    have hsrow2 : (t :: row) ∈ LS := by
      rw [hLSdef]
      exact ((List.perm_insertionSort (rowLe 0) Lrows).mem_iff).mpr hsrow
    have hnop : ∀ p ∈ rpairs, tol < |p.1 - qOf t| := by
      intro p hp
      rw [hrp] at hp
      simp only [List.mem_map] at hp
      obtain ⟨srow2, hs2, rfl⟩ := hp
      obtain ⟨q, hq, rfl⟩ := hRmem srow2 hs2
      exact hno q.1 (List.of_mem_zip hq).1
    have hpick : dirPick dir tol rpairs (qOf t) = none := dirPick_none hnop
    have hgx : ((t :: row) ++
        (match dirPick dir tol rpairs (qOf ((t :: row).getD 0 Value.null)) with
         | some rr => rr
         | none => List.replicate r.cols.length Value.null)) =
        (t :: (row ++ List.replicate r.cols.length Value.null)) := by
      have hq0 : qOf ((t :: row).getD 0 Value.null) = qOf t := rfl
      rw [hq0, hpick]
      rfl
    have hxmem : ((t :: row) ++
        (match dirPick dir tol rpairs (qOf ((t :: row).getD 0 Value.null)) with
         | some rr => rr
         | none => List.replicate r.cols.length Value.null)) ∈ MROWS := by
      rw [hMR]
      exact List.mem_map.mpr ⟨t :: row, hsrow2, rfl⟩
    simp only [idxVals]
    exact zip_pair_helper MROWS _ hxmem t (row ++ List.replicate r.cols.length Value.null) hgx


/-- Claim C1 (witness): two one-row tables 100 seconds apart merged with
direction nearest and tolerance one second. -/
theorem c1_witness :
    ∃ m, merge_datasets c1L c1R Direction.nearest 1 = .ok m ∧
      m.rows.length = c1L.rows.length ∧
      ∀ t row, (t, row) ∈ [Value.dt 0].zip c1L.rows →
        (∀ u ∈ [Value.dt 100], 1 < |qOf u - qOf t|) →
        (t, row ++ List.replicate c1R.cols.length Value.null) ∈ (idxVals m).zip m.rows :=
  c1_merge_outer_left c1L c1R [Value.dt 0] [Value.dt 100] Direction.nearest 1
    rfl rfl (by decide) (by decide) rfl rfl (by decide) (by decide) (by decide)
